import Mathlib

/-!
Verification development for the gieter pipeline.

The pipeline (a Bun/TypeScript program) scrapes holiday-rental listings,
scores them along several components, and combines the components into one
final rating. This file gives a shallow embedding of the parts of the code
that the checked properties concern:

* `src/cache.ts` — the incremental Stage Runner (`runStep`): cache state is
  modelled as an association list from cache-file paths to serialized
  values; the external 64-bit `Bun.hash` is a parameter `hash`, and JSON
  serialization and parsing are parameters `serI`, `serO`, `parO`.
* `src/steps/step4_algorithmic-enrich.ts` (and its earlier generation, which
  also contains the tier-based value score and the practical-amenities
  checklist) — the algorithmic scoring components.
* `src/steps/step7_compute-final-rating.ts` — the population-ranked
  value-for-money component.
* `src/steps/step6_ai-enrich.ts` — the clamping applied to AI-returned
  scores.
* `elo.ts` of the voting worker — `calculateElo`.

JavaScript numbers are modelled as rationals (`ℚ`); `Math.round` is
`jsRound` (round half toward positive infinity). Reason strings that the
source builds from numbers use `toString` on `ℚ` in place of JS number
formatting; no checked property depends on those formatted digits, only on
literal strings.
-/

/-- JS `Math.round`: round half toward positive infinity. -/
def jsRound (q : ℚ) : ℤ := ⌊q + 1/2⌋

/-- The pervasive `Math.round(x * 10) / 10` one-decimal rounding. -/
def round10 (q : ℚ) : ℚ := (jsRound (q * 10) : ℚ) / 10

namespace Cache

/-- `Step` from `src/cache.ts`: a named, versioned unit of pipeline work. -/
structure Step (I O : Type) where
  name : String
  version : String
  run : I → O

/-- `createStep` from `src/cache.ts`. -/
def createStep {I O : Type} (name version : String) (run : I → O) : Step I O :=
  { name := name, version := version, run := run }

/-- The durable cache directory constant from `src/cache.ts`. -/
def CACHE_DIR : String := "./.cache"

/-- The argument fed to `Bun.hash` in `runStep`:
`inputString + step.version`. The external hash itself is a parameter. -/
def fingerprintData (inputString version : String) : String :=
  inputString ++ version

/-- The cache-file path built in `runStep`:
`CACHE_DIR/step.name_fingerprint.json`. -/
def stepCachePath (hash : String → String) (name inputString version : String) : String :=
  CACHE_DIR ++ "/" ++ name ++ "_" ++ hash (fingerprintData inputString version) ++ ".json"

/-- The cache filesystem, as an association list path → stored JSON text.
`cacheGet` models `cacheFile.exists()` followed by `cacheFile.json()`. -/
def cacheGet (cache : List (String × String)) (key : String) : Option String :=
  match cache.find? (fun e => e.1 == key) with
  | some e => some e.2
  | none => none

/-- Result of one `runStep` call: the returned value, the cache state after
the call, and whether `step.run` was invoked. -/
structure RunOutcome (O : Type) where
  result : O
  cache : List (String × String)
  invoked : Bool

/-- `runStep` from `src/cache.ts`: on a cache hit return the parsed stored
value without invoking `step.run`; on a miss invoke it, write the serialized
result at the fingerprint path, and return it. -/
def runStep {I O : Type} (hash : String → String) (serI : I → String)
    (serO : O → String) (parO : String → O)
    (step : Step I O) (input : I) (cache : List (String × String)) : RunOutcome O :=
  let path := stepCachePath hash step.name (serI input) step.version
  match cacheGet cache path with
  | some stored => { result := parO stored, cache := cache, invoked := false }
  | none =>
      let result := step.run input
      { result := result, cache := (path, serO result) :: cache, invoked := true }

/-- A step whose computation may fail (a rejected promise / thrown error). -/
structure StepE (I O E : Type) where
  name : String
  version : String
  run : I → Except E O

/-- Result of one fallible `runStep` call. -/
structure RunOutcomeE (O E : Type) where
  result : Except E O
  cache : List (String × String)
  invoked : Bool

/-- `runStep` on a fallible computation: `await step.run(input)` rethrows
before the `write` call, so a failure leaves the cache untouched. -/
def runStepE {I O E : Type} (hash : String → String) (serI : I → String)
    (serO : O → String) (parO : String → O)
    (step : StepE I O E) (input : I) (cache : List (String × String)) : RunOutcomeE O E :=
  let path := stepCachePath hash step.name (serI input) step.version
  match cacheGet cache path with
  | some stored => { result := .ok (parO stored), cache := cache, invoked := false }
  | none =>
      match step.run input with
      | .error e => { result := .error e, cache := cache, invoked := true }
      | .ok result => { result := .ok result, cache := (path, serO result) :: cache, invoked := true }

end Cache

/-! ## Listing schema (`src/schema.ts`), restricted to the fields the scoring
components read. Optional TS fields are `Option`; review criteria are the four
optional sub-ratings. -/

/-- A `{ score, reason }` Rating Component (`src/schema.ts`). -/
structure RatingComponent where
  score : ℚ
  reason : String
deriving DecidableEq

structure AggregateRating where
  value : ℚ
  count : ℕ
deriving DecidableEq

structure ReviewCriteria where
  cleanliness : Option ℚ := none
  comfort : Option ℚ := none
  welcome : Option ℚ := none
  value : Option ℚ := none
deriving DecidableEq

structure GiteReview where
  author : String := ""
  rating : ℚ := 0
  body : String := ""
  criteria : ReviewCriteria := {}
deriving DecidableEq

structure GiteCapacity where
  people : ℕ := 0
  bedrooms : ℕ := 0
  surfaceM2 : Option ℚ := none
  wifi : Bool := false
  petsAccepted : Bool := false
deriving DecidableEq

structure GiteEquipment where
  indoor : List String := []
  outdoor : List String := []
  services : List String := []
deriving DecidableEq

structure GitePrice where
  amount : ℚ := 0
  currency : String := "EUR"
  per : String := "night"
deriving DecidableEq

structure GiteListing where
  ref : String := ""
  title : String := ""
  quality : ℚ := 0
  summary : Option String := none
  description : Option String := none
  capacity : GiteCapacity := {}
  equipment : GiteEquipment := {}
  priceIncludes : List String := []
  price : GitePrice := {}
  allInclusive : Bool := false
  aggregateRating : AggregateRating := { value := 0, count := 0 }
  reviews : List GiteReview := []
deriving DecidableEq

/-- 8 students travelling together (constant in every scoring step). -/
def GROUP_SIZE : ℚ := 8

/-! ### Case-insensitive keyword matching

The checklist predicates in the source are JS regex literals of plain
alternatives tested with the `i` flag; each alternative is a case-insensitive
substring test. -/

/-- `listStarts needle hay`: `needle` is a prefix of `hay`. -/
def listStarts : List Char → List Char → Bool
  | [], _ => true
  | _ :: _, [] => false
  | a :: as, b :: bs => a == b && listStarts as bs

/-- `listHas needle hay`: `needle` occurs contiguously inside `hay`. -/
def listHas (needle : List Char) : List Char → Bool
  | [] => listStarts needle []
  | hay@(_ :: rest) => listStarts needle hay || listHas needle rest

/-- Case-insensitive substring test (one regex alternative under the i flag). -/
def testCI (needle hay : String) : Bool :=
  listHas (needle.data.map Char.toLower) (hay.data.map Char.toLower)

/-! ## Social proof (`src/steps/step4_algorithmic-enrich.ts`; the earlier
generation of the same step carries an identical copy of these functions). -/

structure CriteriaAverages where
  comfort : ℚ
  cleanliness : ℚ
deriving DecidableEq

/-- `scoreReviewCriteria`: averages of the comfort and cleanliness
sub-ratings over the reviews that carry both; `none` when no review does. -/
def scoreReviewCriteria (listing : GiteListing) : Option CriteriaAverages :=
  let reviews := listing.reviews.filter
    (fun r => r.criteria.comfort.isSome && r.criteria.cleanliness.isSome)
  if reviews.length = 0 then none
  else some
    { comfort :=
        (reviews.foldl (fun s r => s + r.criteria.comfort.getD 0) 0) / (reviews.length : ℚ),
      cleanliness :=
        (reviews.foldl (fun s r => s + r.criteria.cleanliness.getD 0) 0) / (reviews.length : ℚ) }

/-- `scoreConfidenceWeight`: discrete damping weight steps by review count. -/
def scoreConfidenceWeight (count : ℕ) : ℚ :=
  if count = 0 then 0
  else if count = 1 then 0.7
  else if count = 2 then 0.85
  else 0.95

/-- The damping blend applied in `scoreSocialProof`
(`weight * rawBase + (1 - weight) * NEUTRAL`), exposed over an arbitrary raw
score and neutral value. -/
def dampedScore (count : ℕ) (raw neutral : ℚ) : ℚ :=
  scoreConfidenceWeight count * raw + (1 - scoreConfidenceWeight count) * neutral

/-- `scoreSocialProof` from `step4_algorithmic-enrich.ts`. -/
def scoreSocialProof (listing : GiteListing) : RatingComponent :=
  let value := listing.aggregateRating.value
  let count := listing.aggregateRating.count
  if count = 0 then
    { score := 5, reason := "No reviews yet — no social proof available." }
  else
    let NEUTRAL : ℚ := 5
    let weight := scoreConfidenceWeight count
    let rawBase := (value / 5) * 10
    let damped := weight * rawBase + (1 - weight) * NEUTRAL
    let criteria := scoreReviewCriteria listing
    let criteriaBonus : ℚ :=
      match criteria with
      | some c => if c.comfort ≥ 4.5 ∧ c.cleanliness ≥ 4.5 then 0.5 else 0
      | none => 0
    let score := round10 (min 10 (max 1 (damped + criteriaBonus)))
    let confidence : String :=
      if count ≥ 3 then "solid" else if count = 2 then "limited" else "very limited"
    let criteriaText : String :=
      match criteria with
      | some c => " Comfort avg " ++ toString c.comfort ++ "/5, cleanliness avg " ++
          toString c.cleanliness ++ "/5."
      | none => ""
    let plural : String := if count ≠ 1 then "s" else ""
    { score := score,
      reason := toString value ++ "/5 from " ++ toString count ++ " review" ++ plural ++
        " (" ++ confidence ++ " sample)." ++ criteriaText }

/-! ## Earlier scoring generation (the `algorithmic-enrich` step, version "2"):
tier-based value score and the practical-amenities checklist. -/

namespace EnrichV2

structure PriceRange where
  min : ℚ
  max : ℚ
deriving DecidableEq

/-- The per-person prices accumulated for one quality tier by
`buildQualityPriceRanges`: the map entry for `tier` collects
`l.price.amount / GROUP_SIZE` of exactly the listings whose quality is
`tier`, in input order. -/
def tierPrices (listings : List GiteListing) (tier : ℚ) : List ℚ :=
  (listings.filter (fun l => decide (l.quality = tier))).map
    (fun l => l.price.amount / GROUP_SIZE)

/-- `buildQualityPriceRanges`, as the lookup function of the built map:
a tier that occurs gets the min and max of its per-person prices, an absent
tier has no entry. -/
def buildQualityPriceRanges (listings : List GiteListing) (tier : ℚ) : Option PriceRange :=
  match tierPrices listings tier with
  | [] => none
  | p :: ps => some { min := ps.foldl Min.min p, max := ps.foldl Max.max p }

/-- `scoreValue` of the earlier generation: rank per-person price within the
same quality tier (cheapest → 10, most expensive → 1); a missing or degenerate
tier range scores 7; inclusion bonuses added, clamped and rounded. -/
def scoreValue (listing : GiteListing) (ranges : ℚ → Option PriceRange) : RatingComponent :=
  let perPersonPerNight := listing.price.amount / GROUP_SIZE
  let range := ranges listing.quality
  let baseScore : ℚ :=
    match range with
    | none => 7
    | some r =>
        if r.min = r.max then 7
        else 10 - ((perPersonPerNight - r.min) / (r.max - r.min)) * 9
  let inclusionBonus : ℚ :=
    if listing.allInclusive then 1.0
    else if 3 ≤ listing.priceIncludes.length then 0.5
    else if 1 ≤ listing.priceIncludes.length then 0.25
    else 0
  let score := round10 (min 10 (max 1 (baseScore + inclusionBonus)))
  let tierText : String :=
    if listing.quality > 0 then toString listing.quality ++ "-épi tier" else "unrated tier"
  let inclText : String :=
    if listing.allInclusive then "all-inclusive"
    else if 0 < listing.priceIncludes.length then
      "includes " ++ (String.intercalate ", " (listing.priceIncludes.take 2)).toLower
    else "few extras included"
  let rangeMinText : String :=
    match range with
    | some r => toString r.min
    | none => toString perPersonPerNight
  let rangeMaxText : String :=
    match range with
    | some r => toString r.max
    | none => toString perPersonPerNight
  { score := score,
    reason := "€" ++ toString perPersonPerNight ++ "/person/night — " ++ inclText ++
      ". Ranked within " ++ tierText ++ " (range €" ++ rangeMinText ++ "–€" ++
      rangeMaxText ++ "/pp)." }

/-- The fixed amenity checklist (labels and presence predicates) of the
earlier generation. -/
def AMENITY_CHECKLIST : List (String × (GiteListing → Bool)) :=
  [("WiFi", fun l =>
      l.capacity.wifi || l.equipment.services.any (fun s => testCI "wifi" s)),
   ("Washing machine", fun l => l.equipment.indoor.any (fun e => testCI "washing" e)),
   ("Dishwasher", fun l => l.equipment.indoor.any (fun e => testCI "dish" e)),
   ("Parking", fun l => l.equipment.outdoor.any (fun e => testCI "parking" e)),
   ("Oven or hob", fun l =>
      (testCI "oven" (l.description.getD "") || testCI "hob" (l.description.getD "") ||
        testCI "stove" (l.description.getD "") || testCI "induction" (l.description.getD "") ||
        testCI "cuisini" (l.description.getD "")) ||
      (testCI "oven" (l.summary.getD "") || testCI "hob" (l.summary.getD "") ||
        testCI "stove" (l.summary.getD "") || testCI "induction" (l.summary.getD ""))),
   ("Barbecue", fun l =>
      l.equipment.outdoor.any (fun e => testCI "barbecue" e || testCI "grill" e)),
   ("Freezer", fun l =>
      l.equipment.indoor.any (fun e => testCI "freez" e || testCI "congél" e)),
   ("Terrace or garden", fun l =>
      l.equipment.outdoor.any (fun e =>
        testCI "terrace" e || testCI "garden" e || testCI "terrasse" e || testCI "jardin" e))]

/-- `scoreSpaceBonus`: floor-area-per-occupant bonus tiers. -/
def scoreSpaceBonus (listing : GiteListing) : ℚ × String :=
  match listing.capacity.surfaceM2 with
  | none => (0, "unknown floor area")
  | some m2 =>
      let perPerson := m2 / GROUP_SIZE
      if perPerson ≥ 20 then
        (1.0, toString m2 ++ " m² (" ++ toString perPerson ++ " m²/person — spacious)")
      else if perPerson ≥ 12 then
        (0.5, toString m2 ++ " m² (" ++ toString perPerson ++ " m²/person — adequate)")
      else (0, toString m2 ++ " m² (" ++ toString perPerson ++ " m²/person — cramped)")

/-- `scorePracticalAmenities`: equally weighted checklist hits scaled to 10,
plus the space bonus, clamped and rounded. -/
def scorePracticalAmenities (listing : GiteListing) : RatingComponent :=
  let hits := (AMENITY_CHECKLIST.filter (fun a => a.2 listing)).map (fun a => a.1)
  let misses := (AMENITY_CHECKLIST.filter (fun a => !(a.2 listing))).map (fun a => a.1)
  let space := scoreSpaceBonus listing
  let base := ((hits.length : ℚ) / (AMENITY_CHECKLIST.length : ℚ)) * 10
  let score := round10 (min 10 (max 1 (base + space.1)))
  let hitText : String :=
    if 0 < hits.length then "Has: " ++ String.intercalate ", " hits ++ "."
    else "Missing most amenities."
  let missText : String :=
    if 0 < misses.length then " Missing: " ++ String.intercalate ", " misses ++ "." else ""
  { score := score, reason := hitText ++ missText ++ " " ++ space.2 ++ "." }

end EnrichV2

/-! ## Final rating step (`src/steps/step7_compute-final-rating.ts`). -/

namespace FinalRating

/-- Current `AlgorithmicEnrichment` (`src/schema.ts`): only `socialProof`. -/
structure AlgorithmicEnrichment where
  socialProof : RatingComponent
deriving DecidableEq

/-- The four AI-judged components (`src/schema.ts`). -/
structure AiEnrichment where
  outdoorChillPotential : RatingComponent
  groupComfort : RatingComponent
  locationVibe : RatingComponent
  miscellaneous : RatingComponent
deriving DecidableEq

/-- `ListingWithScores`: the TS intersection type
`GiteListing & \x7b distanceKm, algorithmic, ai \x7d`, modelled with the
listing nested. -/
structure ListingWithScores where
  listing : GiteListing
  distanceKm : ℚ := 0
  algorithmic : AlgorithmicEnrichment
  ai : AiEnrichment
deriving DecidableEq

/-- `qualityScore`: mean of the social-proof score and the four AI scores. -/
def qualityScore (algorithmic : AlgorithmicEnrichment) (ai : AiEnrichment) : ℚ :=
  let scores := [algorithmic.socialProof.score, ai.outdoorChillPotential.score,
    ai.groupComfort.score, ai.locationVibe.score, ai.miscellaneous.score]
  scores.foldl (· + ·) 0 / (scores.length : ℚ)

/-- `effectivePrice`: per-person price discounted for bundled inclusions. -/
def effectivePrice (listing : GiteListing) : ℚ :=
  let pp := listing.price.amount / GROUP_SIZE
  if listing.allInclusive then pp * 0.85
  else if 2 ≤ listing.priceIncludes.length then pp * 0.93
  else pp

/-- The ranking population of `scoreValue`: the quality/price ratio of every
listing of `allListings` (no subset is taken). -/
def allRatios (allListings : List ListingWithScores) : List ℚ :=
  allListings.map (fun l => qualityScore l.algorithmic l.ai / effectivePrice l.listing)

/-- `scoreValue` from `step7_compute-final-rating.ts`: the listing's
quality/price ratio ranked across the ratios of the whole population into
[2, 9]; all ratios equal gives the fixed 5.5. The `[]` branch is unreachable:
the step always passes the full listings array, which contains `listing`
itself (on `[]` the JS code would produce NaN). -/
def scoreValue (listing : ListingWithScores) (allListings : List ListingWithScores) :
    RatingComponent :=
  let quality := qualityScore listing.algorithmic listing.ai
  let price := effectivePrice listing.listing
  let ratio := quality / price
  match allRatios allListings with
  | [] => { score := 0, reason := "" }
  | r :: rs =>
      let minR := rs.foldl Min.min r
      let maxR := rs.foldl Max.max r
      let score : ℚ :=
        if minR = maxR then 5.5
        else round10 (min 9 (max 2 (2 + ((ratio - minR) / (maxR - minR)) * 7)))
      let pp := listing.listing.price.amount / GROUP_SIZE
      let inclText : String :=
        if listing.listing.allInclusive then "all-inclusive (price adjusted ×0.85)"
        else if 2 ≤ listing.listing.priceIncludes.length then
          "includes " ++
            (String.intercalate ", " (listing.listing.priceIncludes.take 2)).toLower ++
            " (price adjusted ×0.93)"
        else "few extras included"
      { score := score,
        reason := "Quality avg " ++ toString quality ++ "/10 at €" ++ toString pp ++
          "/person/night — " ++ inclText ++ ". Ratio ranked across all listings." }

end FinalRating

/-- The clamp applied in `step6_ai-enrich.ts` to every schema-valid AI score:
`comp.score = Math.round(Math.min(10, Math.max(1, comp.score)) * 10) / 10`. -/
def clampAiScore (score : ℚ) : ℚ :=
  round10 (min 10 (max 1 score))

/-! ## `elo.ts` of the voting worker. `Math.pow(10, x)` is real
exponentiation, so this model lives in `ℝ`. -/

namespace Elo

def K : ℝ := 32

structure EloResult where
  newWinnerElo : ℝ
  newLoserElo : ℝ

/-- `calculateElo` from `elo.ts`. -/
noncomputable def calculateElo (winnerElo loserElo : ℝ) : EloResult :=
  let expected : ℝ := 1 / (1 + (10 : ℝ) ^ ((loserElo - winnerElo) / 400))
  { newWinnerElo := winnerElo + K * (1 - expected),
    newLoserElo := loserElo + K * (0 - (1 - expected)) }

end Elo

/-! ## Concrete inputs used by witnesses and counterexamples -/

/-- A strong listing: 4.8/5 from 5 reviews, comfort and cleanliness averages
4.6, six of the eight checklist amenities, 200 m² for 8 people. -/
def c7listing : GiteListing :=
  { capacity := { surfaceM2 := some 200, wifi := true },
    equipment := { indoor := ["Washing machine", "Dishwasher", "Freezer"],
                   outdoor := ["Parking", "Barbecue"], services := [] },
    aggregateRating := { value := 4.8, count := 5 },
    reviews := [{ criteria := { comfort := some 4.6, cleanliness := some 4.6 } }] }

/-- 3-épi listing at €100 per person per night (amount 800 for 8 people). -/
def c8cheap : GiteListing := { quality := 3, price := { amount := 800 } }

/-- 3-épi listing at €200 per person per night (amount 1600 for 8 people). -/
def c8dear : GiteListing := { quality := 3, price := { amount := 1600 } }

def neutralAi : FinalRating.AiEnrichment :=
  { outdoorChillPotential := { score := 6, reason := "a" },
    groupComfort := { score := 6, reason := "b" },
    locationVibe := { score := 6, reason := "c" },
    miscellaneous := { score := 6, reason := "d" } }

/-- A scored listing whose price amount is 0 — the parser emits amount 0 when
the listing page carries no price data (`parseFloat(priceMatch?.[1] ?? "0")`),
so this is the representation of "lacking valid price data". In the rational
model its quality/price ratio is 0 (JS would produce Infinity); under either
reading it enters the ranking population. -/
def c9noPrice : FinalRating.ListingWithScores :=
  { listing := { price := { amount := 0 } },
    algorithmic := { socialProof := { score := 6, reason := "sp" } },
    ai := neutralAi }

/-- A scored listing with a valid price (€100 per person effective). -/
def c9priced : FinalRating.ListingWithScores :=
  { listing := { price := { amount := 800 } },
    algorithmic := { socialProof := { score := 6, reason := "sp" } },
    ai := neutralAi }


/-! ## Theorems -/

theorem Cache.cacheGet_cons_self (key value : String) (cache : List (String × String)) :
    Cache.cacheGet ((key, value) :: cache) key = some value := by
  simp [Cache.cacheGet]

theorem Cache.cacheGet_cons_ne (key value k : String) (cache : List (String × String))
    (h : k ≠ key) : Cache.cacheGet ((key, value) :: cache) k = Cache.cacheGet cache k := by
  simp only [Cache.cacheGet, List.find?]
  have : (key == k) = false := by
    simp [BEq.beq]
    exact fun hk => h hk.symm
  simp [this]

theorem string_append_cancel_right {a b v : String} (h : a ++ v = b ++ v) : a = b := by
  have hd : (a ++ v).data = (b ++ v).data := by rw [h]
  simp only [String.data_append] at hd
  exact String.ext (List.append_cancel_right hd)

theorem string_append_cancel_left {v a b : String} (h : v ++ a = v ++ b) : a = b := by
  have hd : (v ++ a).data = (v ++ b).data := by rw [h]
  simp only [String.data_append] at hd
  exact String.ext (List.append_cancel_left hd)

/-- C1: running the Stage Runner twice with the identical (name, version, input)
triple invokes the underlying computation at most once in total, and the second
call returns a value deeply equal to the first. JSON round-tripping of the
cached value is the hypothesis `hrt`. -/
theorem runStep_idempotent {I O : Type} (hash : String → String) (serI : I → String)
    (serO : O → String) (parO : String → O) (step : Cache.Step I O) (input : I)
    (cache : List (String × String))
    (hrt : ∀ o : O, parO (serO o) = o) :
    (Cache.runStep hash serI serO parO step input
        (Cache.runStep hash serI serO parO step input cache).cache).invoked = false ∧
    ((if (Cache.runStep hash serI serO parO step input cache).invoked then 1 else 0) +
      (if (Cache.runStep hash serI serO parO step input
          (Cache.runStep hash serI serO parO step input cache).cache).invoked then 1 else 0)
        ≤ (1 : ℕ)) ∧
    (Cache.runStep hash serI serO parO step input
        (Cache.runStep hash serI serO parO step input cache).cache).result =
      (Cache.runStep hash serI serO parO step input cache).result := by
  unfold Cache.runStep
  rcases hget : Cache.cacheGet cache
      (Cache.stepCachePath hash step.name (serI input) step.version) with _ | v
  · simp [hget, Cache.cacheGet_cons_self, hrt]
  · simp [hget]

theorem runStep_idempotent_witness :
    (Cache.runStep id id id id ⟨"stage", "1", id⟩ "in"
        (Cache.runStep id id id id ⟨"stage", "1", id⟩ "in" []).cache).invoked = false ∧
    ((if (Cache.runStep id id id id ⟨"stage", "1", id⟩ "in" []).invoked then 1 else 0) +
      (if (Cache.runStep id id id id ⟨"stage", "1", id⟩ "in"
          (Cache.runStep id id id id ⟨"stage", "1", id⟩ "in" []).cache).invoked then 1 else 0)
        ≤ (1 : ℕ)) ∧
    (Cache.runStep id id id id ⟨"stage", "1", id⟩ "in"
        (Cache.runStep id id id id ⟨"stage", "1", id⟩ "in" []).cache).result =
      (Cache.runStep id id id id ⟨"stage", "1", id⟩ "in" []).result :=
  runStep_idempotent id id id id ⟨"stage", "1", id⟩ "in" [] (fun _ => rfl)

/-- C2: with the external hash collision-free, two distinct serialized inputs
under the same version produce different fingerprints, two distinct versions
over the same input produce different fingerprints, and a version bump forces
recomputation of an input cached under the previous version. -/
theorem fingerprint_sensitivity {I O : Type} (hash : String → String)
    (hinj : Function.Injective hash)
    (serI : I → String) (serO : O → String) (parO : String → O)
    (name v1 v2 : String) (run : I → O) (input : I) (s1 s2 v : String)
    (hs : s1 ≠ s2) (hv : v1 ≠ v2) :
    hash (Cache.fingerprintData s1 v) ≠ hash (Cache.fingerprintData s2 v) ∧
    hash (Cache.fingerprintData (serI input) v1) ≠
      hash (Cache.fingerprintData (serI input) v2) ∧
    (Cache.runStep hash serI serO parO ⟨name, v2, run⟩ input
        (Cache.runStep hash serI serO parO ⟨name, v1, run⟩ input []).cache).invoked = true := by
  have hfp : ∀ t1 t2 w1 w2 : String, Cache.fingerprintData t1 w1 = Cache.fingerprintData t2 w2 →
      t1 ++ w1 = t2 ++ w2 := fun _ _ _ _ h => h
  refine ⟨?_, ?_, ?_⟩
  · intro h
    exact hs (string_append_cancel_right (hfp _ _ _ _ (hinj h)))
  · intro h
    exact hv (string_append_cancel_left (hfp _ _ _ _ (hinj h)))
  · have hpath : Cache.stepCachePath hash name (serI input) v2 ≠
        Cache.stepCachePath hash name (serI input) v1 := by
      intro h
      unfold Cache.stepCachePath at h
      have h1 := string_append_cancel_right h
      have h2 := string_append_cancel_left h1
      exact hv (string_append_cancel_left (hinj h2)).symm
    unfold Cache.runStep
    have hfirst : Cache.cacheGet []
        (Cache.stepCachePath hash name (serI input) v1) = none := rfl
    simp only [hfirst]
    rw [Cache.cacheGet_cons_ne _ _ _ _ hpath]
    rfl

theorem fingerprint_sensitivity_witness :
    id (Cache.fingerprintData "inA" "v") ≠ id (Cache.fingerprintData "inB" "v") ∧
    id (Cache.fingerprintData (id "in") "1") ≠ id (Cache.fingerprintData (id "in") "2") ∧
    (Cache.runStep id id id id ⟨"stage", "2", id⟩ "in"
        (Cache.runStep id id id id ⟨"stage", "1", id⟩ "in" []).cache).invoked = true := by
  exact fingerprint_sensitivity (I := String) (O := String) id (fun _ _ h => h)
    id id id "stage" "1" "2" id "in" "inA" "inB" "v" (by decide) (by decide)

/-- C4: if the computation fails, the Stage Runner writes nothing to the cache
and propagates the failure; re-running with the same (name, version, input)
invokes the computation again (and fails again). -/
theorem runStep_failure_no_write {I O E : Type} (hash : String → String) (serI : I → String)
    (serO : O → String) (parO : String → O) (step : Cache.StepE I O E) (input : I)
    (cache : List (String × String)) (e : E)
    (hmiss : Cache.cacheGet cache
      (Cache.stepCachePath hash step.name (serI input) step.version) = none)
    (herr : step.run input = .error e) :
    (Cache.runStepE hash serI serO parO step input cache).result = .error e ∧
    (Cache.runStepE hash serI serO parO step input cache).cache = cache ∧
    (Cache.runStepE hash serI serO parO step input
        (Cache.runStepE hash serI serO parO step input cache).cache).invoked = true ∧
    (Cache.runStepE hash serI serO parO step input
        (Cache.runStepE hash serI serO parO step input cache).cache).result = .error e := by
  unfold Cache.runStepE
  simp [hmiss, herr]

theorem runStep_failure_no_write_witness :
    (Cache.runStepE id id id id ⟨"stage", "1", fun _ => .error "boom"⟩ "in" []).result
      = .error "boom" ∧
    (Cache.runStepE id id id id ⟨"stage", "1", fun _ => .error "boom"⟩ "in" []).cache = [] ∧
    (Cache.runStepE id id id id ⟨"stage", "1", fun _ => .error "boom"⟩ "in"
        (Cache.runStepE id id id id
          ⟨"stage", "1", fun _ => .error "boom"⟩ "in" []).cache).invoked = true ∧
    (Cache.runStepE id id id id ⟨"stage", "1", fun _ => .error "boom"⟩ "in"
        (Cache.runStepE id id id id
          ⟨"stage", "1", fun _ => .error "boom"⟩ "in" []).cache).result = .error "boom" :=
  runStep_failure_no_write (O := String) id id id id
    ⟨"stage", "1", fun _ => .error "boom"⟩ "in" [] "boom" rfl rfl

/-! ## Rounding and clamping lemmas -/

theorem round10_mem (lo hi : ℤ) (x : ℚ) (h1 : (lo : ℚ) ≤ x) (h2 : x ≤ (hi : ℚ)) :
    (lo : ℚ) ≤ round10 x ∧ round10 x ≤ (hi : ℚ) := by
  unfold round10 jsRound
  constructor
  · rw [le_div_iff₀ (by norm_num : (0:ℚ) < 10)]
    have h : (lo * 10 : ℤ) ≤ ⌊x * 10 + 1/2⌋ := by
      rw [Int.le_floor]
      push_cast
      nlinarith
    calc ((lo:ℚ) * 10) = ((lo * 10 : ℤ) : ℚ) := by push_cast; ring
      _ ≤ (⌊x * 10 + 1/2⌋ : ℚ) := by exact_mod_cast h
  · rw [div_le_iff₀ (by norm_num : (0:ℚ) < 10)]
    have h : ⌊x * 10 + 1/2⌋ ≤ hi * 10 := by
      have hlt : (x * 10 + 1/2 : ℚ) < ((hi * 10 + 1 : ℤ) : ℚ) := by push_cast; nlinarith
      have := Int.floor_lt.mpr hlt
      omega
    calc (⌊x * 10 + 1/2⌋ : ℚ) ≤ ((hi * 10 : ℤ) : ℚ) := by exact_mod_cast h
      _ = (hi:ℚ) * 10 := by push_cast; ring

theorem clamp_round10_mem (x : ℚ) :
    1 ≤ round10 (min 10 (max 1 x)) ∧ round10 (min 10 (max 1 x)) ≤ 10 := by
  have h1 : (1:ℚ) ≤ min 10 (max 1 x) := le_min (by norm_num) (le_max_left 1 x)
  have h2 : min (10:ℚ) (max 1 x) ≤ 10 := min_le_left _ _
  have h := round10_mem 1 10 (min 10 (max 1 x)) (by exact_mod_cast h1) (by exact_mod_cast h2)
  exact ⟨by exact_mod_cast h.1, by exact_mod_cast h.2⟩

theorem clamp29_round10_mem (x : ℚ) :
    2 ≤ round10 (min 9 (max 2 x)) ∧ round10 (min 9 (max 2 x)) ≤ 9 := by
  have h1 : (2:ℚ) ≤ min 9 (max 2 x) := le_min (by norm_num) (le_max_left 2 x)
  have h2 : min (9:ℚ) (max 2 x) ≤ 9 := min_le_left _ _
  have h := round10_mem 2 9 (min 9 (max 2 x)) (by exact_mod_cast h1) (by exact_mod_cast h2)
  exact ⟨by exact_mod_cast h.1, by exact_mod_cast h.2⟩

theorem scoreConfidenceWeight_le_one (n : ℕ) : scoreConfidenceWeight n ≤ 1 := by
  unfold scoreConfidenceWeight
  split_ifs <;> norm_num

theorem scoreConfidenceWeight_mono {m n : ℕ} (h : m ≤ n) :
    scoreConfidenceWeight m ≤ scoreConfidenceWeight n := by
  unfold scoreConfidenceWeight
  split_ifs <;> first | (exfalso; omega) | norm_num

/-- C5: the confidence-damped score at 0 observations is exactly the neutral
constant, and for a fixed raw score and neutral value the distance between
the damped score and the raw score is non-increasing in the number of
observations across the weight steps. -/
theorem dampedScore_neutral_and_mono (raw neutral : ℚ) (m n : ℕ) (h : m ≤ n) :
    dampedScore 0 raw neutral = neutral ∧
    |dampedScore n raw neutral - raw| ≤ |dampedScore m raw neutral - raw| := by
  constructor
  · unfold dampedScore scoreConfidenceWeight
    norm_num
  · have e : ∀ k : ℕ, dampedScore k raw neutral - raw =
        (1 - scoreConfidenceWeight k) * (neutral - raw) := by
      intro k
      unfold dampedScore
      ring
    rw [e, e, abs_mul, abs_mul]
    have hn1 := scoreConfidenceWeight_le_one n
    have hm1 := scoreConfidenceWeight_le_one m
    have hmono := scoreConfidenceWeight_mono h
    rw [abs_of_nonneg (by linarith : (0:ℚ) ≤ 1 - scoreConfidenceWeight n),
      abs_of_nonneg (by linarith : (0:ℚ) ≤ 1 - scoreConfidenceWeight m)]
    exact mul_le_mul_of_nonneg_right (by linarith) (abs_nonneg _)

theorem dampedScore_neutral_and_mono_witness :
    dampedScore 0 8 5 = 5 ∧ |dampedScore 3 8 5 - 8| ≤ |dampedScore 1 8 5 - 8| :=
  dampedScore_neutral_and_mono 8 5 1 3 (by norm_num)

/-- C6: a listing with zero reviews short-circuits to the neutral score 5 with
the fixed no-reviews rationale, without running the damping formula. -/
theorem scoreSocialProof_no_reviews (listing : GiteListing)
    (h : listing.aggregateRating.count = 0) :
    scoreSocialProof listing =
      { score := 5, reason := "No reviews yet — no social proof available." } := by
  simp [scoreSocialProof, h]

theorem scoreSocialProof_no_reviews_witness :
    scoreSocialProof {} =
      { score := 5, reason := "No reviews yet — no social proof available." } :=
  scoreSocialProof_no_reviews {} rfl

/-- C3: every Rating Component returned by the score components — social
proof, practical amenities, the population-ranked value component (called, as
the step does, with the listing among its population), and any schema-valid
AI-returned component after clamping — has a score within [1, 10], for
arbitrary listings, including a listing matching zero checklist items and a
listing with aggregate rating 0 and positive review count. -/
theorem rating_components_clamped (l : GiteListing) (lw : FinalRating.ListingWithScores)
    (pop : List FinalRating.ListingWithScores) (hmem : lw ∈ pop) (raw : ℚ) :
    (1 ≤ (scoreSocialProof l).score ∧ (scoreSocialProof l).score ≤ 10) ∧
    (1 ≤ (EnrichV2.scorePracticalAmenities l).score ∧
      (EnrichV2.scorePracticalAmenities l).score ≤ 10) ∧
    (1 ≤ (FinalRating.scoreValue lw pop).score ∧
      (FinalRating.scoreValue lw pop).score ≤ 10) ∧
    (1 ≤ clampAiScore raw ∧ clampAiScore raw ≤ 10) := by
  refine ⟨?_, ?_, ?_, ?_⟩
  · by_cases hc : l.aggregateRating.count = 0
    · simp [scoreSocialProof, hc]
      norm_num
    · simp only [scoreSocialProof, hc, if_false, ite_false]
      exact clamp_round10_mem _
  · simp only [EnrichV2.scorePracticalAmenities]
    exact clamp_round10_mem _
  · rcases pop with _ | ⟨p, ps⟩
    · cases hmem
    · simp only [FinalRating.scoreValue, FinalRating.allRatios, List.map]
      split_ifs with hd
      · norm_num
      · have h := clamp29_round10_mem
          (2 + ((FinalRating.qualityScore lw.algorithmic lw.ai /
              FinalRating.effectivePrice lw.listing -
            (ps.map (fun l => FinalRating.qualityScore l.algorithmic l.ai /
              FinalRating.effectivePrice l.listing)).foldl Min.min
              (FinalRating.qualityScore p.algorithmic p.ai /
                FinalRating.effectivePrice p.listing)) /
            ((ps.map (fun l => FinalRating.qualityScore l.algorithmic l.ai /
              FinalRating.effectivePrice l.listing)).foldl Max.max
              (FinalRating.qualityScore p.algorithmic p.ai /
                FinalRating.effectivePrice p.listing) -
            (ps.map (fun l => FinalRating.qualityScore l.algorithmic l.ai /
              FinalRating.effectivePrice l.listing)).foldl Min.min
              (FinalRating.qualityScore p.algorithmic p.ai /
                FinalRating.effectivePrice p.listing))) * 7)
        constructor
        · linarith [h.1]
        · linarith [h.2]
  · unfold clampAiScore
    exact clamp_round10_mem raw

theorem amenity_checklist_length : EnrichV2.AMENITY_CHECKLIST.length = 8 := rfl

theorem rating_components_clamped_witness :
    (1 ≤ (scoreSocialProof {}).score ∧ (scoreSocialProof {}).score ≤ 10) ∧
    (1 ≤ (EnrichV2.scorePracticalAmenities {}).score ∧
      (EnrichV2.scorePracticalAmenities {}).score ≤ 10) ∧
    (1 ≤ (FinalRating.scoreValue c9priced [c9priced]).score ∧
      (FinalRating.scoreValue c9priced [c9priced]).score ≤ 10) ∧
    (1 ≤ clampAiScore 12 ∧ clampAiScore 12 ≤ 10) :=
  rating_components_clamped {} c9priced [c9priced] (List.mem_singleton_self _) 12

/-- C7: a listing rated 4.8/5 from 5 reviews with comfort and cleanliness
averages 4.6, six of the eight checklist amenities and 25 m² per occupant
scores at least 9 on social proof and at least 8.5 on practical amenities. -/
theorem strong_listing_scores (l : GiteListing)
    (hval : l.aggregateRating.value = 4.8) (hcount : l.aggregateRating.count = 5)
    (hcrit : scoreReviewCriteria l = some { comfort := 4.6, cleanliness := 4.6 })
    (hhits : (EnrichV2.AMENITY_CHECKLIST.filter (fun a => a.2 l)).length = 6)
    (hsurf : l.capacity.surfaceM2 = some 200) :
    9 ≤ (scoreSocialProof l).score ∧ 8.5 ≤ (EnrichV2.scorePracticalAmenities l).score := by
  constructor
  · norm_num [scoreSocialProof, hval, hcount, hcrit, scoreConfidenceWeight,
      round10, jsRound]
  · norm_num [EnrichV2.scorePracticalAmenities, EnrichV2.scoreSpaceBonus,
      List.length_map, hhits, hsurf, amenity_checklist_length, GROUP_SIZE,
      round10, jsRound, min_def, max_def]

theorem strong_listing_scores_witness :
    9 ≤ (scoreSocialProof c7listing).score ∧
    8.5 ≤ (EnrichV2.scorePracticalAmenities c7listing).score :=
  strong_listing_scores c7listing rfl rfl
    (by norm_num [scoreReviewCriteria, c7listing, List.filter])
    (by decide) rfl

/-- C8 counterexample: two listings sharing the 3-épi tier at €100 and €200
per person, with no other tier members, do NOT both receive the
single-member-tier fallback 7 — the tier range is non-degenerate, so they are
ranked against each other. -/
theorem two_member_tier_not_fallback :
    ¬ ((EnrichV2.scoreValue c8cheap
          (EnrichV2.buildQualityPriceRanges [c8cheap, c8dear])).score = 7 ∧
       (EnrichV2.scoreValue c8dear
          (EnrichV2.buildQualityPriceRanges [c8cheap, c8dear])).score = 7) := by
  intro hc
  have h10 : (EnrichV2.scoreValue c8cheap
      (EnrichV2.buildQualityPriceRanges [c8cheap, c8dear])).score = 10 := by
    norm_num [EnrichV2.scoreValue, EnrichV2.buildQualityPriceRanges, EnrichV2.tierPrices,
      c8cheap, c8dear, List.filter, GROUP_SIZE, round10, jsRound, min_def, max_def]
  rw [h10] at hc
  norm_num at hc

/-- C8 amended: within a shared tier the two listings are compared against each
other — at €100 and €200 per person (no inclusion bonuses) the cheaper scores
10 and the dearer 1; the fixed score 7 is the fallback for a listing whose
tier range is degenerate, e.g. a listing that is the sole member of its tier. -/
theorem tier_ranking_and_single_member_fallback (l : GiteListing)
    (hincl : l.allInclusive = false) (hinc : l.priceIncludes = []) :
    (EnrichV2.scoreValue l (EnrichV2.buildQualityPriceRanges [l])).score = 7 ∧
    (EnrichV2.scoreValue c8cheap
        (EnrichV2.buildQualityPriceRanges [c8cheap, c8dear])).score = 10 ∧
    (EnrichV2.scoreValue c8dear
        (EnrichV2.buildQualityPriceRanges [c8cheap, c8dear])).score = 1 := by
  refine ⟨?_, ?_, ?_⟩
  · norm_num [EnrichV2.scoreValue, EnrichV2.buildQualityPriceRanges, EnrichV2.tierPrices,
      hincl, hinc, List.filter, round10, jsRound, min_def, max_def]
  · norm_num [EnrichV2.scoreValue, EnrichV2.buildQualityPriceRanges, EnrichV2.tierPrices,
      c8cheap, c8dear, List.filter, GROUP_SIZE, round10, jsRound, min_def, max_def]
  · norm_num [EnrichV2.scoreValue, EnrichV2.buildQualityPriceRanges, EnrichV2.tierPrices,
      c8cheap, c8dear, List.filter, GROUP_SIZE, round10, jsRound, min_def, max_def]

theorem tier_ranking_and_single_member_fallback_witness :
    (EnrichV2.scoreValue {} (EnrichV2.buildQualityPriceRanges [{}])).score = 7 ∧
    (EnrichV2.scoreValue c8cheap
        (EnrichV2.buildQualityPriceRanges [c8cheap, c8dear])).score = 10 ∧
    (EnrichV2.scoreValue c8dear
        (EnrichV2.buildQualityPriceRanges [c8cheap, c8dear])).score = 1 :=
  tier_ranking_and_single_member_fallback {} rfl rfl

/-- C9 counterexample: a listing whose price amount is 0 (the parser fallback
for missing price data) is NOT excluded from the ranking population — its
ratio is one of the two population ratios, its presence changes the score of
the other listing — and it is NOT assigned the fixed neutral 5.5: it gets the
ranked score 2 (in the rational model; the JS code would produce NaN there,
likewise not a fixed neutral). -/
theorem no_price_listing_ranked_not_excluded :
    (FinalRating.allRatios [c9noPrice, c9priced]).length = 2 ∧
    (FinalRating.scoreValue c9noPrice [c9noPrice, c9priced]).score = 2 ∧
    (FinalRating.scoreValue c9noPrice [c9noPrice, c9priced]).score ≠ 5.5 ∧
    (FinalRating.scoreValue c9priced [c9priced]).score ≠
      (FinalRating.scoreValue c9priced [c9noPrice, c9priced]).score := by
  have hz : (FinalRating.scoreValue c9noPrice [c9noPrice, c9priced]).score = 2 := by
    norm_num [FinalRating.scoreValue, FinalRating.allRatios, FinalRating.qualityScore,
      FinalRating.effectivePrice, c9noPrice, c9priced, neutralAi, GROUP_SIZE,
      round10, jsRound, min_def, max_def]
  have hone : (FinalRating.scoreValue c9priced [c9priced]).score = 5.5 := by
    norm_num [FinalRating.scoreValue, FinalRating.allRatios, FinalRating.qualityScore,
      FinalRating.effectivePrice, c9priced, neutralAi, GROUP_SIZE]
  have hboth : (FinalRating.scoreValue c9priced [c9noPrice, c9priced]).score = 9 := by
    norm_num [FinalRating.scoreValue, FinalRating.allRatios, FinalRating.qualityScore,
      FinalRating.effectivePrice, c9noPrice, c9priced, neutralAi, GROUP_SIZE,
      round10, jsRound, min_def, max_def]
  refine ⟨rfl, hz, ?_, ?_⟩
  · rw [hz]; norm_num
  · rw [hone, hboth]; norm_num

/-- C9 amended: `scoreValue` excludes no listing from its ranking population —
every member of the population contributes its quality/effective-price ratio,
the population of ratios has exactly one entry per listing, and the only
fixed score, 5.5, is the degenerate all-ratios-equal fallback (e.g. a
single-listing population), not a price-validity fallback. -/
theorem value_ranks_whole_population (lw : FinalRating.ListingWithScores)
    (pop : List FinalRating.ListingWithScores) (hmem : lw ∈ pop) :
    (FinalRating.qualityScore lw.algorithmic lw.ai / FinalRating.effectivePrice lw.listing)
      ∈ FinalRating.allRatios pop ∧
    (FinalRating.allRatios pop).length = pop.length ∧
    (FinalRating.scoreValue lw [lw]).score = 5.5 := by
  refine ⟨List.mem_map_of_mem _ hmem, List.length_map _ _, ?_⟩
  simp [FinalRating.scoreValue, FinalRating.allRatios]

theorem value_ranks_whole_population_witness :
    (FinalRating.qualityScore c9priced.algorithmic c9priced.ai /
        FinalRating.effectivePrice c9priced.listing)
      ∈ FinalRating.allRatios [c9priced] ∧
    (FinalRating.allRatios [c9priced]).length = [c9priced].length ∧
    (FinalRating.scoreValue c9priced [c9priced]).score = 5.5 :=
  value_ranks_whole_population c9priced [c9priced] (List.mem_singleton_self _)

/-- C10: `calculateElo` conserves the total rating exactly (in exact real
arithmetic), and strictly increases the winner while strictly decreasing the
loser, for every pair of ratings. -/
theorem calculateElo_conserves_and_strict (winnerElo loserElo : ℝ) :
    (Elo.calculateElo winnerElo loserElo).newWinnerElo +
      (Elo.calculateElo winnerElo loserElo).newLoserElo = winnerElo + loserElo ∧
    winnerElo < (Elo.calculateElo winnerElo loserElo).newWinnerElo ∧
    (Elo.calculateElo winnerElo loserElo).newLoserElo < loserElo := by
  have hpow : (0:ℝ) < (10:ℝ) ^ ((loserElo - winnerElo) / 400) :=
    Real.rpow_pos_of_pos (by norm_num) _
  have hexp1 : 1 / (1 + (10:ℝ) ^ ((loserElo - winnerElo) / 400)) < 1 := by
    rw [div_lt_one (by linarith)]
    linarith
  simp only [Elo.calculateElo, Elo.K]
  refine ⟨by ring, ?_, ?_⟩
  · nlinarith
  · nlinarith
